import Mathlib

/-!
Verification of the HomeCraft reconciliation core against its specification.

The definitions below are a shallow embedding of the Go sources:
  * `backend/pkg/utils/credentials.go`  (credential issuer),
  * `backend/pkg/handlers/server_handler.go` (quantity codec / admission),
  * `backend/pkg/k8s/client.go`         (capacity planner),
  * `operator/controllers/minecraftserver_controller.go` (resource synthesis,
    reconcile loop, status projection).

Machine integers (Go `int`, `int32`, `int64`) are embedded as `Int`; none of
the verified properties exercises wrap-around.  Fallible Go code is embedded
with `Option` (a `none` models a `panic`, as noted at each definition).
The secure random source is embedded by passing the drawn bytes explicitly.
-/

/-- A decimal digit test, embedding the `[0-9]` character class used by the
regular expressions in `server_handler.go`. -/
def isDigitChar (c : Char) : Bool := '0' ≤ c && c ≤ '9'

/-- Value of a list of decimal digit characters (most significant first). -/
def digitsToNat (l : List Char) : Nat :=
  l.foldl (fun acc c => acc * 10 + (c.toNat - 48)) 0

/-! ## Credential issuer (`backend/pkg/utils/credentials.go`) -/

/-- The URL-safe base64 alphabet used by Go's `base64.URLEncoding`. -/
def b64urlAlphabet : List Char :=
  "ABCDEFGHIJKLMNOPQRSTUVWXYZabcdefghijklmnopqrstuvwxyz0123456789-_".data

/-- Character of the URL-safe base64 alphabet at a 6-bit index. -/
def b64urlChar (i : Nat) : Char := b64urlAlphabet.getD i 'A'

/-- Embedding of `base64.URLEncoding.EncodeToString`: standard base64 over the
URL-safe alphabet, with `=` padding. Input bytes are `Nat`s below 256. -/
def base64urlEncode : List Nat → List Char
  | b0 :: b1 :: b2 :: rest =>
      b64urlChar (b0 / 4) :: b64urlChar (b0 % 4 * 16 + b1 / 16) ::
      b64urlChar (b1 % 16 * 4 + b2 / 64) :: b64urlChar (b2 % 64) ::
      base64urlEncode rest
  | [b0, b1] =>
      [b64urlChar (b0 / 4), b64urlChar (b0 % 4 * 16 + b1 / 16),
       b64urlChar (b1 % 16 * 4), '=']
  | [b0] =>
      [b64urlChar (b0 / 4), b64urlChar (b0 % 4 * 16), '=', '=']
  | [] => []

/-- Embedding of `generateSecurePassword` (`credentials.go:58-79`).  The Go
function fills a buffer of `length` bytes from `crypto/rand`; the drawn bytes
are passed here explicitly (`randomBytes.take length` models the fixed buffer
size).  The three sequential `strings.ReplaceAll(_, x, "")` calls delete the
characters `-`, `_`, `=` and are embedded as one filter (the deletions are
independent).  `password[:length]` slices bytes; base64 output is ASCII, so
character truncation coincides. -/
def generateSecurePassword (length : Nat) (randomBytes : List Nat) : String :=
  let password := base64urlEncode (randomBytes.take length)
  let password := password.filter fun c => c != '-' && c != '_' && c != '='
  let password := if password.length > length then password.take length else password
  String.mk password

/-- Embedding of `sanitizeServerName` (`credentials.go:33-55`): replace `_`
and `.` by `-`, lower-case, keep only `[a-z0-9-]`, truncate to 20 characters.
`strings.ToLower` is embedded by `Char.toLower`, which agrees on ASCII (the
later filter keeps ASCII only anyway). -/
def sanitizeServerName (name : String) : String :=
  let cs := name.data
  let cs := cs.map fun c => if c = '_' then '-' else c
  let cs := cs.map fun c => if c = '.' then '-' else c
  let cs := cs.map Char.toLower
  let cs := cs.filter fun c =>
    ('a' ≤ c && c ≤ 'z') || ('0' ≤ c && c ≤ '9') || c == '-'
  let sanitized := cs
  let sanitized := if sanitized.length > 20 then sanitized.take 20 else sanitized
  String.mk sanitized

/-- `PasswordLength` constant from `credentials.go`. -/
def PasswordLength : Nat := 16

/-- Embedding of `GenerateSFTPCredentials` (`credentials.go:18-30`): username
`"mc-" ++ sanitize(serverName)` and a fresh password from the random source. -/
def GenerateSFTPCredentials (serverName : String) (randomBytes : List Nat) :
    String × String :=
  ("mc" ++ "-" ++ sanitizeServerName serverName,
   generateSecurePassword PasswordLength randomBytes)

/-! ## Quantity codec (`server_handler.go`) -/

/-- Embedding of `isValidMemoryFormat` (`server_handler.go`): full match of the
anchored regular expression `[0-9]+[MGT]i` — one or more digits, a binary unit
letter `M`, `G` or `T`, then `i`.  Matching is done from the end of the
character list. -/
def isValidMemoryFormat (memory : String) : Bool :=
  match memory.data.reverse with
  | c1 :: c2 :: rest =>
      c1 == 'i' && (c2 == 'M' || c2 == 'G' || c2 == 'T') &&
      !rest.isEmpty && rest.all isDigitChar
  | _ => false

/-- The integer exponent of the quantity grammar's `<decimalExponent>`
suffix: optional sign, then one or more digits. -/
def parseSignedExponent (cs : List Char) : Option Int :=
  match cs with
  | '+' :: rest =>
      if !rest.isEmpty && rest.all isDigitChar then some (digitsToNat rest : Int) else none
  | '-' :: rest =>
      if !rest.isEmpty && rest.all isDigitChar then some (-(digitsToNat rest : Int)) else none
  | rest =>
      if !rest.isEmpty && rest.all isDigitChar then some (digitsToNat rest : Int) else none

/-- The suffix table of the library's quantity grammar, as a
numerator/denominator multiplier: the binary-SI suffixes `Ki`..`Ei`
(powers of 1024) and the decimal-SI suffixes `n`, `u`, `m`, `""`, `k`, `M`,
`G`, `T`, `P`, `E` (powers of 1000).  Suffixes are case-sensitive; anything
else (including the `e`/`E` exponent forms, handled separately) is not in
this table. -/
def quantitySuffixMultiplier (suf : String) : Option (Nat × Nat) :=
  match suf with
  | "" => some (1, 1)
  | "Ki" => some (1024, 1)
  | "Mi" => some (1024 ^ 2, 1)
  | "Gi" => some (1024 ^ 3, 1)
  | "Ti" => some (1024 ^ 4, 1)
  | "Pi" => some (1024 ^ 5, 1)
  | "Ei" => some (1024 ^ 6, 1)
  | "n" => some (1, 1000 ^ 3)
  | "u" => some (1, 1000 ^ 2)
  | "m" => some (1, 1000)
  | "k" => some (1000, 1)
  | "M" => some (1000 ^ 2, 1)
  | "G" => some (1000 ^ 3, 1)
  | "T" => some (1000 ^ 4, 1)
  | "P" => some (1000 ^ 5, 1)
  | "E" => some (1000 ^ 6, 1)
  | _ => none

/-- `sign * (num / den)` rounded to an integer away from zero (`den > 0` at
every call site): the rounding `Quantity.Value()` applies to a fractional
quantity, which on the non-negative quantities is the ceiling. -/
def divRoundAwayFromZero (sign : Int) (num den : Nat) : Int :=
  if num % den == 0 then sign * (num / den : Nat)
  else sign * ((num / den : Nat) + 1)

/-- Model of the external library call `resource.ParseQuantity(s)` followed
by `.Value()` (k8s.io/apimachinery, not part of this repository), following
that library's documented grammar: an optional sign, a decimal number
(`<digits>`, `<digits>.<digits>`, `<digits>.` or `.<digits>`), then either a
binary-SI suffix, a decimal-SI suffix (including `n`/`u`/`m` and the empty
suffix) or a decimal exponent `e`/`E`±digits — so fractional and signed
quantities such as `"1.5Gi"` or `"+2Gi"` parse, exactly as the library
accepts them; everything outside the grammar is a parse error (`none`),
which is what `resource.MustParse` turns into a panic.  `.Value()` on a
fractional value is rounding away from zero; values are exact (unbounded
`Int`), diverging from Go only beyond the `int64` range, consistent with
this file's integer embedding. -/
def parseQuantity (s : String) : Option Int :=
  let p := match s.data with
    | '+' :: rest => ((1 : Int), rest)
    | '-' :: rest => ((-1 : Int), rest)
    | rest => ((1 : Int), rest)
  let sign := p.1
  let intDigits := p.2.takeWhile isDigitChar
  let afterInt := p.2.dropWhile isDigitChar
  let q := match afterInt with
    | '.' :: r => (r.takeWhile isDigitChar, r.dropWhile isDigitChar)
    | r => (([] : List Char), r)
  let fracDigits := q.1
  let suffixChars := q.2
  if intDigits.isEmpty && fracDigits.isEmpty then none
  else
    let mant := digitsToNat intDigits * 10 ^ fracDigits.length + digitsToNat fracDigits
    let den0 := 10 ^ fracDigits.length
    match quantitySuffixMultiplier (String.mk suffixChars) with
    | some m => some (divRoundAwayFromZero sign (mant * m.1) (den0 * m.2))
    | none =>
      match suffixChars with
      | 'e' :: erest =>
          (parseSignedExponent erest).map fun e =>
            if 0 ≤ e then divRoundAwayFromZero sign (mant * 10 ^ e.toNat) den0
            else divRoundAwayFromZero sign mant (den0 * 10 ^ (-e).toNat)
      | 'E' :: erest =>
          (parseSignedExponent erest).map fun e =>
            if 0 ≤ e then divRoundAwayFromZero sign (mant * 10 ^ e.toNat) den0
            else divRoundAwayFromZero sign mant (den0 * 10 ^ (-e).toNat)
      | _ => none

/-- Embedding of `parseMemoryToBytes` (`server_handler.go`): delegate to the
quantity parser; a parse error is `none`. -/
def parseMemoryToBytes (memory : String) : Option Int := parseQuantity memory

/-- The admission-path quantity parser named by the claims: the
`isValidMemoryFormat` gate followed by `parseMemoryToBytes`, exactly as
`CreateServer` applies them in `server_handler.go`. -/
def validatedMemoryParse (s : String) : Option Int :=
  if isValidMemoryFormat s then parseMemoryToBytes s else none

/-- Round `num / den` to the nearest integer, ties to even — the rounding of
Go's `%.1f` formatting applied to the scaled quotient (see `formatFixed1`). -/
def roundHalfEven (num den : Nat) : Nat :=
  let q := num / den
  let r := num % den
  if 2 * r < den then q
  else if 2 * r > den then q + 1
  else if q % 2 = 0 then q else q + 1

/-- Embedding of `fmt.Sprintf("%.1f", float64(bytes)/float64(div))` from
`bytesToHumanReadable`: render the quotient with exactly one fractional
digit.  The float64 division and decimal formatting are modelled as rational
rounding half-to-even of `10 * bytes / div`; both coincide on every quantity
this system renders (`bytes < 2^53`, quotient in `[1, 1024)`). -/
def formatFixed1 (bytes div : Nat) : String :=
  let t := roundHalfEven (10 * bytes) div
  toString (t / 10) ++ "." ++ String.mk [Nat.digitChar (t % 10)]

/-- The unit-finding loop of `bytesToHumanReadable`:
`for n := bytes / unit; n >= unit; n /= unit { div *= unit; exp++ }`.
The fuel bounds the iteration count; eight iterations cover every `int64`
(`2^63 < 1024^8`), so the fuel is never exhausted on Go inputs. -/
def hrLoop (fuel : Nat) (n div exp : Nat) : Nat × Nat :=
  match fuel with
  | 0 => (div, exp)
  | fuel + 1 =>
      if n ≥ 1024 then hrLoop fuel (n / 1024) (div * 1024) (exp + 1)
      else (div, exp)

/-- The unit letters `"KMGTPE"` indexed by the loop's exponent. -/
def humanReadableUnits : List Char := ['K', 'M', 'G', 'T', 'P', 'E']

/-- Embedding of `bytesToHumanReadable` (identical copies in
`server_handler.go` and `k8s/client.go`): below 1024 render `"%d B"`,
otherwise find the largest binary unit and render `"%.1f %ciB"`. -/
def bytesToHumanReadable (bytes : Int) : String :=
  if bytes < 1024 then toString bytes ++ " B"
  else
    let n0 := bytes.toNat
    let p := hrLoop 8 (n0 / 1024) 1024 0
    formatFixed1 n0 p.1 ++ " " ++ String.mk [humanReadableUnits.getD p.2 'K'] ++ "iB"

/-! ## Capacity planner (`backend/pkg/k8s/client.go`) -/

/-- A container of an observed pod: its memory request, when it declares one
(`container.Resources.Requests["memory"]`). -/
structure PodContainer where
  memoryRequest : Option Int
deriving DecidableEq, Repr

/-- An observed pod: its lifecycle phase string and its containers. -/
structure ObservedPod where
  phase : String
  containers : List PodContainer
deriving DecidableEq, Repr

/-- An observed node: its allocatable-memory figure, when it reports one
(`node.Status.Allocatable["memory"]`). -/
structure ObservedNode where
  allocatableMemory : Option Int
deriving DecidableEq, Repr

/-- The cluster state read by the capacity planner: all nodes and all pods. -/
structure Cluster where
  nodes : List ObservedNode
  pods : List ObservedPod
deriving DecidableEq, Repr

/-- Embedding of `GetClusterMemoryResources` (`client.go:139-176`): total =
sum of node allocatable memory; allocated = sum of container memory requests
of every pod whose phase is not `Succeeded`/`Failed`; available = total -
allocated.  The node/pod list calls are modelled as reading the given
`Cluster`; their error paths are not exercised by the claims. -/
def getClusterMemoryResources (c : Cluster) : Int × Int × Int :=
  let total := c.nodes.foldl
    (fun acc node =>
      match node.allocatableMemory with
      | some m => acc + m
      | none => acc) 0
  let allocated := c.pods.foldl
    (fun acc pod =>
      if pod.phase == "Succeeded" || pod.phase == "Failed" then acc
      else pod.containers.foldl
        (fun a ct =>
          match ct.memoryRequest with
          | some m => a + m
          | none => a) acc) 0
  (total, allocated, total - allocated)

/-- Embedding of `CheckMemoryAvailability` (`client.go:179-192`): reject with
the human-readable reason when the request exceeds the available figure. -/
def checkMemoryAvailability (c : Cluster) (requestedMemory : Int) : Bool × String :=
  let available := (getClusterMemoryResources c).2.2
  if requestedMemory > available then
    (false, "insufficient memory: requested " ++ bytesToHumanReadable requestedMemory ++
            ", available " ++ bytesToHumanReadable available)
  else (true, "")

/-! ## Operator data model (`pkg/apis/homecraft/v1alpha1/types.go`) -/

/-- Embedding of `MinecraftServerSpec`.  The backend variant's
`PublicEndpoint` field is not consumed by any claim and is omitted. -/
structure MinecraftServerSpec where
  eula : Bool
  sftpUsername : String
  sftpPassword : String
  memory : String
  storageSize : String
  version : String
  serverType : String
  maxPlayers : Int
  difficulty : String
  gamemode : String
deriving DecidableEq, Repr

/-- Embedding of `MinecraftServerStatus`.  `metav1.Time` is embedded as an
integer timestamp.  `Conditions` is never read or written by the controller
and is omitted. -/
structure MinecraftServerStatus where
  phase : String
  endpoint : String
  sftpEndpoint : String
  sftpUsername : String
  sftpPassword : String
  allocatedMemory : String
  lastUpdated : Int
  message : String
deriving DecidableEq, Repr

/-- The object metadata the controller reads and writes: name, namespace,
deletion mark (`DeletionTimestamp.IsZero()` negated) and the finalizer list. -/
structure ObjectMeta where
  name : String
  ns : String
  markedForDeletion : Bool
  finalizers : List String
deriving DecidableEq, Repr

/-- Embedding of the `MinecraftServer` custom resource. -/
structure MinecraftServer where
  meta : ObjectMeta
  spec : MinecraftServerSpec
  status : MinecraftServerStatus
deriving DecidableEq, Repr

/-- `finalizerName` constant from the controller. -/
def finalizerName : String := "minecraftserver.homecraft.io/finalizer"

/-! ## Resource synthesis (`minecraftserver_controller.go:146-363`) -/

/-- An environment variable of the game container. -/
structure EnvVar where
  name : String
  value : String
deriving DecidableEq, Repr

/-- The fields of the synthesized Secret that the controller sets. -/
structure SecretObj where
  name : String
  ns : String
  username : String
  password : String
deriving DecidableEq, Repr

/-- The fields of the synthesized PersistentVolumeClaim that the controller
sets; `storageRequest` is the parsed byte value of the storage quantity. -/
structure PVCObj where
  name : String
  ns : String
  accessModes : List String
  storageRequest : Int
deriving DecidableEq, Repr

/-- A container of the synthesized StatefulSet pod template. -/
structure ContainerObj where
  name : String
  image : String
  args : List String
  ports : List Int
  env : List EnvVar
  memoryRequest : Option Int
  memoryLimit : Option Int
  volumeMounts : List (String × String)
deriving DecidableEq, Repr

/-- The fields of the synthesized StatefulSet that the controller sets. -/
structure StatefulSetObj where
  name : String
  ns : String
  labels : List (String × String)
  replicas : Int
  serviceName : String
  selector : List (String × String)
  templateLabels : List (String × String)
  containers : List ContainerObj
  volumeClaimName : String
deriving DecidableEq, Repr

/-- The fields of a synthesized Service: port entries are
`(name, port, targetPort)`. -/
structure ServiceObj where
  name : String
  ns : String
  labels : List (String × String)
  serviceType : String
  selector : List (String × String)
  ports : List (String × Int × Int)
deriving DecidableEq, Repr

/-- Embedding of `secretForMinecraftServer` (`controller.go:146-157`). -/
def secretForMinecraftServer (m : MinecraftServer) : SecretObj :=
  { name := m.meta.name ++ "-sftp"
    ns := m.meta.ns
    username := m.spec.sftpUsername
    password := m.spec.sftpPassword }

/-- Embedding of `pvcForMinecraftServer` (`controller.go:159-178`).
`resource.MustParse(m.Spec.StorageSize)` panics on a malformed quantity; the
panic is embedded as `none`. -/
def pvcForMinecraftServer (m : MinecraftServer) : Option PVCObj :=
  (parseQuantity m.spec.storageSize).map fun storageQuantity =>
    { name := m.meta.name ++ "-data"
      ns := m.meta.ns
      accessModes := ["ReadWriteOnce"]
      storageRequest := storageQuantity }

/-- Embedding of `statefulSetForMinecraftServer` (`controller.go:180-309`).
`resource.MustParse(m.Spec.Memory)` panics on a malformed quantity; the panic
is embedded as `none`.  `fmt.Sprintf("%t", b)` renders `"true"`/`"false"`;
`fmt.Sprintf("%d", n)` is `toString`. -/
def statefulSetForMinecraftServer (m : MinecraftServer) : Option StatefulSetObj :=
  (parseQuantity m.spec.memory).map fun memoryQuantity =>
    let version := if m.spec.version = "" then "LATEST" else m.spec.version
    let serverType := if m.spec.serverType = "" then "VANILLA" else m.spec.serverType
    let labels := [("app", "minecraft"),
                   ("minecraftserver", m.meta.name),
                   ("app.kubernetes.io/name", "minecraft"),
                   ("app.kubernetes.io/instance", m.meta.name),
                   ("app.kubernetes.io/managed-by", "homecraft-operator")]
    let minecraftEnv := [EnvVar.mk "EULA" (if m.spec.eula then "true" else "false"),
                         EnvVar.mk "VERSION" version,
                         EnvVar.mk "TYPE" serverType,
                         EnvVar.mk "MEMORY" m.spec.memory]
    let minecraftEnv := if m.spec.maxPlayers > 0 then
        minecraftEnv ++ [EnvVar.mk "MAX_PLAYERS" (toString m.spec.maxPlayers)]
      else minecraftEnv
    let minecraftEnv := if m.spec.difficulty ≠ "" then
        minecraftEnv ++ [EnvVar.mk "DIFFICULTY" m.spec.difficulty]
      else minecraftEnv
    let minecraftEnv := if m.spec.gamemode ≠ "" then
        minecraftEnv ++ [EnvVar.mk "MODE" m.spec.gamemode]
      else minecraftEnv
    let sftpUser := m.spec.sftpUsername ++ ":" ++ m.spec.sftpPassword ++ ":1000:1000:/data"
    { name := m.meta.name
      ns := m.meta.ns
      labels := labels
      replicas := 1
      serviceName := m.meta.name
      selector := labels
      templateLabels := labels
      containers := [
        { name := "minecraft"
          image := "itzg/minecraft-server:latest"
          args := []
          ports := [25565]
          env := minecraftEnv
          memoryRequest := some memoryQuantity
          memoryLimit := some memoryQuantity
          volumeMounts := [("data", "/data")] },
        { name := "sftp"
          image := "atmoz/sftp:latest"
          args := [sftpUser]
          ports := [22]
          env := []
          memoryRequest := none
          memoryLimit := none
          volumeMounts := [("data", "/home/" ++ m.spec.sftpUsername ++ "/data")] }]
      volumeClaimName := m.meta.name ++ "-data" }

/-- Embedding of `serviceForMinecraft` (`controller.go:311-336`). -/
def serviceForMinecraft (m : MinecraftServer) : ServiceObj :=
  let labels := [("app", "minecraft"), ("minecraftserver", m.meta.name)]
  { name := m.meta.name ++ "-minecraft"
    ns := m.meta.ns
    labels := labels
    serviceType := "LoadBalancer"
    selector := labels
    ports := [("minecraft", 25565, 25565)] }

/-- Embedding of `serviceForSFTP` (`controller.go:338-363`). -/
def serviceForSFTP (m : MinecraftServer) : ServiceObj :=
  let labels := [("app", "minecraft"), ("minecraftserver", m.meta.name)]
  { name := m.meta.name ++ "-sftp"
    ns := m.meta.ns
    labels := labels
    serviceType := "LoadBalancer"
    selector := labels
    ports := [("sftp", 22, 22)] }

/-! ## Status projection (`minecraftserver_controller.go:365-431`) -/

/-- The phase/message computation of `updateStatus` (`controller.go:388-398`):
defaults `("Pending", "Creating resources")`, overridden by the ready and
total replica counts of the observed StatefulSet. -/
def projectPhase (readyReplicas replicas : Int) : String × String :=
  if readyReplicas > 0 then ("Running", "Server is running")
  else if replicas > 0 then ("Starting", "Server is starting")
  else ("Pending", "Creating resources")

/-- The endpoint computation of `updateStatus` (`controller.go:400-418`): use
the first load-balancer ingress IP and the first declared service port; empty
string when there is no ingress, the IP is empty, or there are no ports. -/
def projectEndpoint (ingressIPs : List String) (ports : List Int) : String :=
  match ingressIPs with
  | ip :: _ =>
      match ports with
      | p :: _ => if ip ≠ "" then ip ++ ":" ++ toString p else ""
      | [] => ""
  | [] => ""

/-- The status record written by `updateStatus` (`controller.go:420-428`),
as a pure function of the spec, the observed replica counts, the observed
service ingress/ports, and the current time (`metav1.Now()`). -/
def computeStatus (spec : MinecraftServerSpec) (readyReplicas replicas : Int)
    (mcIngressIPs : List String) (mcPorts : List Int)
    (sftpIngressIPs : List String) (sftpPorts : List Int) (now : Int) :
    MinecraftServerStatus :=
  let pm := projectPhase readyReplicas replicas
  { phase := pm.1
    message := pm.2
    endpoint := projectEndpoint mcIngressIPs mcPorts
    sftpEndpoint := projectEndpoint sftpIngressIPs sftpPorts
    sftpUsername := spec.sftpUsername
    sftpPassword := spec.sftpPassword
    allocatedMemory := spec.memory
    lastUpdated := now }

/-! ## The store and the reconcile loop (`minecraftserver_controller.go:42-144`)

The external store is embedded as association lists keyed by
`(namespace, name)`.  A reconcile pass additionally returns the ordered trace
of store operations it issued, so that ordering and absence statements
("the finalizer is attached before any owned object is created", "no update
is ever issued for an existing owned object") can be stated directly. -/

/-- The kinds of owned objects the controller manages. -/
inductive ObjKind
  | secret
  | pvc
  | statefulSet
  | service
deriving DecidableEq, Repr

/-- One store operation issued during a reconcile pass. -/
inductive StoreOp
  | getServer (found : Bool)
  | updateServer
  | getObject (kind : ObjKind) (name : String) (found : Bool)
  | createObject (kind : ObjKind) (name : String)
  | writeStatus
deriving DecidableEq, Repr

/-- Store keys: `(namespace, name)`. -/
abbrev StoreKey := String × String

/-- Association-list read, embedding a store `Get`: `none` is NotFound. -/
def lookupKV {α : Type} (k : StoreKey) (l : List (StoreKey × α)) : Option α :=
  (l.find? fun p => p.1 == k).map Prod.snd

/-- Association-list write of an existing key, embedding a store `Update`. -/
def updateKV {α : Type} (k : StoreKey) (v : α) (l : List (StoreKey × α)) :
    List (StoreKey × α) :=
  l.map fun p => if p.1 == k then (k, v) else p

/-- Observed status of a stored StatefulSet (written by the platform, only
read by the controller). -/
structure StsStatus where
  readyReplicas : Int
  replicas : Int
deriving DecidableEq, Repr

/-- A Secret as held by the store: the synthesized object plus the owner
back-reference attached at creation. -/
structure StoredSecret where
  obj : SecretObj
  owner : Option String
deriving DecidableEq, Repr

/-- A PersistentVolumeClaim as held by the store. -/
structure StoredPVC where
  obj : PVCObj
  owner : Option String
deriving DecidableEq, Repr

/-- A StatefulSet as held by the store, with its observed status. -/
structure StoredSts where
  obj : StatefulSetObj
  status : StsStatus
  owner : Option String
deriving DecidableEq, Repr

/-- A Service as held by the store, with its observed load-balancer ingress
IPs. -/
structure StoredSvc where
  obj : ServiceObj
  ingressIPs : List String
  owner : Option String
deriving DecidableEq, Repr

/-- The world the reconcile loop acts on: the server records and the four
typed object stores (both Services live in one store). -/
structure World where
  servers : List (StoreKey × MinecraftServer)
  secrets : List (StoreKey × StoredSecret)
  pvcs : List (StoreKey × StoredPVC)
  stss : List (StoreKey × StoredSts)
  svcs : List (StoreKey × StoredSvc)
deriving DecidableEq

/-- Result of a reconcile invocation: `ok r` is a nil error with requeue
after `r` seconds; `err` is a returned store error; `panicked` models a
`resource.MustParse` panic escaping the pass. -/
inductive ReconcileResult
  | ok (requeueAfterSeconds : Int)
  | err
  | panicked
deriving DecidableEq, Repr

/-- Embedding of `createOrUpdateResource` (`controller.go:119-144`): read the
object by its key; when absent, create the passed object (which already
carries the owner back-reference, as `SetControllerReference` runs first);
when present, do nothing.  No update operation exists on any path. -/
def createOrUpdateResource {α : Type} (kind : ObjKind) (k : StoreKey) (v : α)
    (store : List (StoreKey × α)) : List (StoreKey × α) × List StoreOp :=
  match lookupKV k store with
  | none => (store ++ [(k, v)], [StoreOp.getObject kind k.2 false, StoreOp.createObject kind k.2])
  | some _ => (store, [StoreOp.getObject kind k.2 true])

/-- The owned-object and status segment of `Reconcile`
(`controller.go:81-116`), run once the finalizer gate has passed; `server1`
is the (possibly finalizer-extended) record.  Freshly created StatefulSets
and Services carry zero observed status.  The trailing part embeds
`updateStatus` (`controller.go:365-431`): re-read the live StatefulSet and
Services, project the status and write it; a NotFound on any of those reads
returns the error to the caller. -/
def reconcileOwnedAndStatus (w : World) (key : StoreKey)
    (server1 : MinecraftServer) (now : Int) :
    World × List StoreOp × ReconcileResult :=
  let ns := server1.meta.ns
  let owner := some server1.meta.name
  let secret := secretForMinecraftServer server1
  let pSec := createOrUpdateResource ObjKind.secret (ns, secret.name)
    (StoredSecret.mk secret owner) w.secrets
  let w2 : World := { w with secrets := pSec.1 }
  match pvcForMinecraftServer server1 with
  | none => (w2, pSec.2, ReconcileResult.panicked)
  | some pvc =>
    let pPvc := createOrUpdateResource ObjKind.pvc (ns, pvc.name)
      (StoredPVC.mk pvc owner) w2.pvcs
    let w3 : World := { w2 with pvcs := pPvc.1 }
    match statefulSetForMinecraftServer server1 with
    | none => (w3, pSec.2 ++ pPvc.2, ReconcileResult.panicked)
    | some sts =>
      let pSts := createOrUpdateResource ObjKind.statefulSet (ns, sts.name)
        (StoredSts.mk sts ⟨0, 0⟩ owner) w3.stss
      let w4 : World := { w3 with stss := pSts.1 }
      let mcSvc := serviceForMinecraft server1
      let pMc := createOrUpdateResource ObjKind.service (ns, mcSvc.name)
        (StoredSvc.mk mcSvc [] owner) w4.svcs
      let w5 : World := { w4 with svcs := pMc.1 }
      let sftpSvc := serviceForSFTP server1
      let pSftp := createOrUpdateResource ObjKind.service (ns, sftpSvc.name)
        (StoredSvc.mk sftpSvc [] owner) w5.svcs
      let w6 : World := { w5 with svcs := pSftp.1 }
      match lookupKV (ns, sts.name) w6.stss,
            lookupKV (ns, mcSvc.name) w6.svcs,
            lookupKV (ns, sftpSvc.name) w6.svcs with
      | some actualSts, some actualMc, some actualSftp =>
        let server2 := { server1 with status :=
          (computeStatus server1.spec actualSts.status.readyReplicas
            actualSts.status.replicas
            actualMc.ingressIPs (actualMc.obj.ports.map fun p => p.2.1)
            actualSftp.ingressIPs (actualSftp.obj.ports.map fun p => p.2.1) now) }
        ({ w6 with servers := updateKV key server2 w6.servers },
         pSec.2 ++ pPvc.2 ++ pSts.2 ++ pMc.2 ++ pSftp.2 ++ [StoreOp.writeStatus],
         ReconcileResult.ok 30)
      | _, _, _ =>
        (w6, pSec.2 ++ pPvc.2 ++ pSts.2 ++ pMc.2 ++ pSftp.2, ReconcileResult.err)

/-- Embedding of `Reconcile` (`controller.go:42-117`): fetch (NotFound is
terminal success), finalizer gate on deletion, finalizer attachment for live
records, then owned-object creation and status projection.
`controllerutil.RemoveFinalizer` drops every occurrence;
`controllerutil.AddFinalizer` appends. -/
def reconcile (w : World) (key : StoreKey) (now : Int) :
    World × List StoreOp × ReconcileResult :=
  match lookupKV key w.servers with
  | none => (w, [StoreOp.getServer false], ReconcileResult.ok 0)
  | some server =>
    if server.meta.markedForDeletion then
      if finalizerName ∈ server.meta.finalizers then
        let server' := { server with meta := { server.meta with
          finalizers := server.meta.finalizers.filter fun f => f != finalizerName } }
        ({ w with servers := updateKV key server' w.servers },
         [StoreOp.getServer true, StoreOp.updateServer], ReconcileResult.ok 0)
      else (w, [StoreOp.getServer true], ReconcileResult.ok 0)
    else
      if finalizerName ∈ server.meta.finalizers then
        let r := reconcileOwnedAndStatus w key server now
        (r.1, StoreOp.getServer true :: r.2.1, r.2.2)
      else
        let server' := { server with meta := { server.meta with
          finalizers := server.meta.finalizers ++ [finalizerName] } }
        let w1 := { w with servers := updateKV key server' w.servers }
        let r := reconcileOwnedAndStatus w1 key server' now
        (r.1, StoreOp.getServer true :: StoreOp.updateServer :: r.2.1, r.2.2)

/-- The status a pass writes for a stored record `s`, read off the world's
object stores (a proof-side abbreviation of the tail of
`reconcileOwnedAndStatus`; the fallback branch is unreachable whenever the
owned objects exist). -/
def statusOf (s : MinecraftServer) (w : World) (now : Int) : MinecraftServerStatus :=
  match lookupKV (s.meta.ns, s.meta.name) w.stss,
        lookupKV (s.meta.ns, s.meta.name ++ "-minecraft") w.svcs,
        lookupKV (s.meta.ns, s.meta.name ++ "-sftp") w.svcs with
  | some aSts, some aMc, some aSftp =>
      computeStatus s.spec aSts.status.readyReplicas aSts.status.replicas
        aMc.ingressIPs (aMc.obj.ports.map fun p => p.2.1)
        aSftp.ingressIPs (aSftp.obj.ports.map fun p => p.2.1) now
  | _, _, _ => s.status

/-- All five owned objects of `s` are present in `w`'s stores. -/
def ownedEnsured (s : MinecraftServer) (w : World) : Prop :=
  (lookupKV (s.meta.ns, s.meta.name ++ "-sftp") w.secrets).isSome ∧
  (lookupKV (s.meta.ns, s.meta.name ++ "-data") w.pvcs).isSome ∧
  (lookupKV (s.meta.ns, s.meta.name) w.stss).isSome ∧
  (lookupKV (s.meta.ns, s.meta.name ++ "-minecraft") w.svcs).isSome ∧
  (lookupKV (s.meta.ns, s.meta.name ++ "-sftp") w.svcs).isSome

/-! ## Lemmas about the store and the reconcile pass -/

theorem lookupKV_cons {α : Type} (k : StoreKey) (a : StoreKey × α) (l : List (StoreKey × α)) :
    lookupKV k (a :: l) = if a.1 == k then some a.2 else lookupKV k l := by
  by_cases h : (a.1 == k)
  · simp [lookupKV, List.find?_cons_of_pos, h]
  · simp [lookupKV, List.find?_cons_of_neg, h]

theorem lookupKV_append_of_some {α : Type} (k : StoreKey) (l l' : List (StoreKey × α)) (x : α)
    (h : lookupKV k l = some x) : lookupKV k (l ++ l') = some x := by
  induction l with
  | nil => simp [lookupKV] at h
  | cons a l ih =>
      rw [List.cons_append, lookupKV_cons]
      rw [lookupKV_cons] at h
      split at h
      · rename_i hpos
        rw [if_pos hpos]
        exact h
      · rename_i hne
        rw [if_neg hne]
        exact ih h

theorem lookupKV_append_self {α : Type} (k : StoreKey) (l : List (StoreKey × α)) (v : α)
    (h : lookupKV k l = none) : lookupKV k (l ++ [(k, v)]) = some v := by
  induction l with
  | nil => simp [lookupKV]
  | cons a l ih =>
      rw [lookupKV_cons] at h
      rw [List.cons_append, lookupKV_cons]
      split at h
      · exact absurd h (by simp)
      · rename_i hne
        rw [if_neg hne]
        exact ih h

theorem lookupKV_updateKV_self {α : Type} (k : StoreKey) (v : α) (l : List (StoreKey × α))
    (h : (lookupKV k l).isSome) : lookupKV k (updateKV k v l) = some v := by
  induction l with
  | nil => simp [lookupKV] at h
  | cons a l ih =>
      rw [lookupKV_cons] at h
      by_cases ha : (a.1 == k)
      · simp only [updateKV, List.map_cons, if_pos ha]
        rw [lookupKV_cons]
        simp
      · simp only [updateKV, List.map_cons, if_neg ha]
        rw [lookupKV_cons, if_neg ha]
        rw [if_neg ha] at h
        exact ih h

theorem lookupKV_createOrUpdateResource_self {α : Type} (kind : ObjKind) (k : StoreKey)
    (v : α) (store : List (StoreKey × α)) :
    ∃ x, lookupKV k (createOrUpdateResource kind k v store).1 = some x := by
  unfold createOrUpdateResource
  cases h : lookupKV k store with
  | none => exact ⟨v, lookupKV_append_self k store v h⟩
  | some x => exact ⟨x, h⟩

theorem lookupKV_createOrUpdateResource_of_some {α : Type} (kind : ObjKind) (k k' : StoreKey)
    (v x : α) (store : List (StoreKey × α)) (h : lookupKV k' store = some x) :
    lookupKV k' (createOrUpdateResource kind k v store).1 = some x := by
  unfold createOrUpdateResource
  cases hk : lookupKV k store with
  | none => exact lookupKV_append_of_some k' store [(k, v)] x h
  | some y => exact h

theorem createOrUpdateResource_of_some {α : Type} (kind : ObjKind) (k : StoreKey)
    (v x : α) (store : List (StoreKey × α)) (h : lookupKV k store = some x) :
    createOrUpdateResource kind k v store = (store, [StoreOp.getObject kind k.2 true]) := by
  unfold createOrUpdateResource
  rw [h]

theorem secretForMinecraftServer_name (m : MinecraftServer) :
    (secretForMinecraftServer m).name = m.meta.name ++ "-sftp" := rfl

theorem serviceForMinecraft_name (m : MinecraftServer) :
    (serviceForMinecraft m).name = m.meta.name ++ "-minecraft" := rfl

theorem serviceForSFTP_name (m : MinecraftServer) :
    (serviceForSFTP m).name = m.meta.name ++ "-sftp" := rfl

theorem pvcForMinecraftServer_some (m : MinecraftServer)
    (h : (parseQuantity m.spec.storageSize).isSome) :
    ∃ pvc, pvcForMinecraftServer m = some pvc ∧ pvc.name = m.meta.name ++ "-data" := by
  obtain ⟨q, hq⟩ := Option.isSome_iff_exists.mp h
  exact ⟨_, by rw [pvcForMinecraftServer, hq, Option.map_some'], rfl⟩

theorem statefulSetForMinecraftServer_some (m : MinecraftServer)
    (h : (parseQuantity m.spec.memory).isSome) :
    ∃ sts, statefulSetForMinecraftServer m = some sts ∧ sts.name = m.meta.name := by
  obtain ⟨q, hq⟩ := Option.isSome_iff_exists.mp h
  exact ⟨_, by rw [statefulSetForMinecraftServer, hq, Option.map_some'], rfl⟩

theorem reconcileOwnedAndStatus_props (w : World) (key : StoreKey) (s : MinecraftServer) (now : Int)
    (hserv : (lookupKV key w.servers).isSome)
    (hmem : (parseQuantity s.spec.memory).isSome)
    (hsto : (parseQuantity s.spec.storageSize).isSome) :
    ∃ s1, (reconcileOwnedAndStatus w key s now).2.2 = ReconcileResult.ok 30 ∧
      lookupKV key (reconcileOwnedAndStatus w key s now).1.servers = some s1 ∧
      s1.meta = s.meta ∧ s1.spec = s.spec ∧
      ownedEnsured s1 (reconcileOwnedAndStatus w key s now).1 ∧
      s1.status = statusOf s1 (reconcileOwnedAndStatus w key s now).1 now := by
  obtain ⟨pvc, hpvc, hpvcn⟩ := pvcForMinecraftServer_some s hsto
  obtain ⟨sts, hsts, hstsn⟩ := statefulSetForMinecraftServer_some s hmem
  simp only [reconcileOwnedAndStatus, hpvc, hsts, secretForMinecraftServer_name,
    serviceForMinecraft_name, serviceForSFTP_name, hpvcn, hstsn]
  obtain ⟨aSts, hASts⟩ := lookupKV_createOrUpdateResource_self ObjKind.statefulSet
    (s.meta.ns, s.meta.name)
    (StoredSts.mk sts ⟨0, 0⟩ (some s.meta.name)) w.stss
  obtain ⟨aMc0, hMc0⟩ := lookupKV_createOrUpdateResource_self ObjKind.service
    (s.meta.ns, s.meta.name ++ "-minecraft")
    (StoredSvc.mk (serviceForMinecraft s) [] (some s.meta.name)) w.svcs
  have hMc : lookupKV (s.meta.ns, s.meta.name ++ "-minecraft")
      (createOrUpdateResource ObjKind.service (s.meta.ns, s.meta.name ++ "-sftp")
        (StoredSvc.mk (serviceForSFTP s) [] (some s.meta.name))
        (createOrUpdateResource ObjKind.service (s.meta.ns, s.meta.name ++ "-minecraft")
          (StoredSvc.mk (serviceForMinecraft s) [] (some s.meta.name)) w.svcs).1).1 = some aMc0 :=
    lookupKV_createOrUpdateResource_of_some _ _ _ _ _ _ hMc0
  obtain ⟨aSftp, hSftp⟩ := lookupKV_createOrUpdateResource_self ObjKind.service
    (s.meta.ns, s.meta.name ++ "-sftp")
    (StoredSvc.mk (serviceForSFTP s) [] (some s.meta.name))
    (createOrUpdateResource ObjKind.service (s.meta.ns, s.meta.name ++ "-minecraft")
      (StoredSvc.mk (serviceForMinecraft s) [] (some s.meta.name)) w.svcs).1
  simp only [hASts, hMc, hSftp]
  refine ⟨{ s with status := (computeStatus s.spec aSts.status.readyReplicas
      aSts.status.replicas aMc0.ingressIPs (aMc0.obj.ports.map fun p => p.2.1)
      aSftp.ingressIPs (aSftp.obj.ports.map fun p => p.2.1) now) },
    by trivial, ?_, rfl, rfl, ?_, ?_⟩
  · exact lookupKV_updateKV_self key _ w.servers hserv
  · refine ⟨?_, ?_, ?_, ?_, ?_⟩
    · obtain ⟨x, hx⟩ := lookupKV_createOrUpdateResource_self ObjKind.secret
        (s.meta.ns, s.meta.name ++ "-sftp")
        (StoredSecret.mk (secretForMinecraftServer s) (some s.meta.name)) w.secrets
      simp [hx]
    · obtain ⟨x, hx⟩ := lookupKV_createOrUpdateResource_self ObjKind.pvc
        (s.meta.ns, s.meta.name ++ "-data")
        (StoredPVC.mk pvc (some s.meta.name)) w.pvcs
      simp [hx]
    · simp [hASts]
    · simp [hMc]
    · simp [hSftp]
  · simp only [statusOf, hASts, hMc, hSftp]

theorem reconcile_not_found (w : World) (key : StoreKey) (now : Int)
    (h : lookupKV key w.servers = none) :
    reconcile w key now = (w, [StoreOp.getServer false], ReconcileResult.ok 0) := by
  simp only [reconcile, h]

theorem reconcile_deletion_finalizer (w : World) (key : StoreKey) (now : Int)
    (server : MinecraftServer)
    (hs : lookupKV key w.servers = some server)
    (hdel : server.meta.markedForDeletion = true)
    (hfin : finalizerName ∈ server.meta.finalizers) :
    reconcile w key now =
      ({ w with servers := updateKV key { server with meta := { server.meta with
           finalizers := server.meta.finalizers.filter fun f => f != finalizerName } } w.servers },
       [StoreOp.getServer true, StoreOp.updateServer], ReconcileResult.ok 0) := by
  simp only [reconcile, hs, hdel, if_true, if_pos hfin]

theorem reconcile_deletion_no_finalizer (w : World) (key : StoreKey) (now : Int)
    (server : MinecraftServer)
    (hs : lookupKV key w.servers = some server)
    (hdel : server.meta.markedForDeletion = true)
    (hfin : finalizerName ∉ server.meta.finalizers) :
    reconcile w key now = (w, [StoreOp.getServer true], ReconcileResult.ok 0) := by
  simp only [reconcile, hs, hdel, if_true, if_neg hfin]

theorem reconcile_live_props (w : World) (key : StoreKey) (now : Int)
    (server : MinecraftServer)
    (hs : lookupKV key w.servers = some server)
    (hlive : server.meta.markedForDeletion = false)
    (hmem : (parseQuantity server.spec.memory).isSome)
    (hsto : (parseQuantity server.spec.storageSize).isSome) :
    ∃ s1, (reconcile w key now).2.2 = ReconcileResult.ok 30 ∧
      lookupKV key (reconcile w key now).1.servers = some s1 ∧
      s1.meta.name = server.meta.name ∧ s1.meta.ns = server.meta.ns ∧
      s1.meta.markedForDeletion = false ∧ finalizerName ∈ s1.meta.finalizers ∧
      s1.spec = server.spec ∧
      ownedEnsured s1 (reconcile w key now).1 ∧
      s1.status = statusOf s1 (reconcile w key now).1 now := by
  by_cases hf : finalizerName ∈ server.meta.finalizers
  · have hstep : reconcile w key now =
        ((reconcileOwnedAndStatus w key server now).1,
         StoreOp.getServer true :: (reconcileOwnedAndStatus w key server now).2.1,
         (reconcileOwnedAndStatus w key server now).2.2) := by
      simp only [reconcile, hs, hlive, if_false, if_pos hf, Bool.false_eq_true]
    obtain ⟨s1, h30, hls, hmeta, hspec, hens, hstat⟩ :=
      reconcileOwnedAndStatus_props w key server now (by simp [hs]) hmem hsto
    refine ⟨s1, ?_, ?_, ?_, ?_, ?_, ?_, ?_, ?_, ?_⟩
    · rw [hstep]; exact h30
    · rw [hstep]; exact hls
    · rw [hmeta]
    · rw [hmeta]
    · rw [hmeta]; exact hlive
    · rw [hmeta]; exact hf
    · rw [hspec]
    · rw [hstep]; exact hens
    · rw [hstep]; exact hstat
  · set server' : MinecraftServer := { server with meta := { server.meta with
      finalizers := server.meta.finalizers ++ [finalizerName] } } with hserver'
    set w1 : World := { w with servers := updateKV key server' w.servers } with hw1
    have hstep : reconcile w key now =
        ((reconcileOwnedAndStatus w1 key server' now).1,
         StoreOp.getServer true :: StoreOp.updateServer ::
           (reconcileOwnedAndStatus w1 key server' now).2.1,
         (reconcileOwnedAndStatus w1 key server' now).2.2) := by
      simp only [reconcile, hs, hlive, if_false, if_neg hf, Bool.false_eq_true, hserver', hw1]
    have hserv1 : (lookupKV key w1.servers).isSome := by
      rw [hw1]
      simp [lookupKV_updateKV_self key server' w.servers (by simp [hs])]
    obtain ⟨s1, h30, hls, hmeta, hspec, hens, hstat⟩ :=
      reconcileOwnedAndStatus_props w1 key server' now hserv1 (by simp [hserver', hmem]) (by simp [hserver', hsto])
    refine ⟨s1, ?_, ?_, ?_, ?_, ?_, ?_, ?_, ?_, ?_⟩
    · rw [hstep]; exact h30
    · rw [hstep]; exact hls
    · rw [hmeta, hserver']
    · rw [hmeta, hserver']
    · rw [hmeta, hserver']; exact hlive
    · rw [hmeta, hserver']; simp
    · rw [hspec, hserver']
    · rw [hstep]; exact hens
    · rw [hstep]; exact hstat

theorem computeStatus_set_now (spec : MinecraftServerSpec) (r R : Int)
    (a : List String) (b : List Int) (c : List String) (d : List Int) (now now' : Int) :
    computeStatus spec r R a b c d now =
      { computeStatus spec r R a b c d now' with lastUpdated := now } := rfl

theorem statusOf_set_now (s : MinecraftServer) (w : World) (now now' : Int)
    (h1 : (lookupKV (s.meta.ns, s.meta.name) w.stss).isSome)
    (h2 : (lookupKV (s.meta.ns, s.meta.name ++ "-minecraft") w.svcs).isSome)
    (h3 : (lookupKV (s.meta.ns, s.meta.name ++ "-sftp") w.svcs).isSome) :
    statusOf s w now = { statusOf s w now' with lastUpdated := now } := by
  obtain ⟨a, ha⟩ := Option.isSome_iff_exists.mp h1
  obtain ⟨b, hb⟩ := Option.isSome_iff_exists.mp h2
  obtain ⟨c, hc⟩ := Option.isSome_iff_exists.mp h3
  simp only [statusOf, ha, hb, hc]
  exact computeStatus_set_now s.spec _ _ _ _ _ _ now now'

theorem statusOf_credential_fields (s : MinecraftServer) (w : World) (now : Int)
    (h1 : (lookupKV (s.meta.ns, s.meta.name) w.stss).isSome)
    (h2 : (lookupKV (s.meta.ns, s.meta.name ++ "-minecraft") w.svcs).isSome)
    (h3 : (lookupKV (s.meta.ns, s.meta.name ++ "-sftp") w.svcs).isSome) :
    (statusOf s w now).sftpUsername = s.spec.sftpUsername ∧
    (statusOf s w now).sftpPassword = s.spec.sftpPassword ∧
    (statusOf s w now).lastUpdated = now := by
  obtain ⟨a, ha⟩ := Option.isSome_iff_exists.mp h1
  obtain ⟨b, hb⟩ := Option.isSome_iff_exists.mp h2
  obtain ⟨c, hc⟩ := Option.isSome_iff_exists.mp h3
  simp only [statusOf, ha, hb, hc]
  exact ⟨rfl, rfl, rfl⟩

theorem reconcile_ensured_eq (w : World) (key : StoreKey) (now : Int) (s : MinecraftServer)
    (hs : lookupKV key w.servers = some s)
    (hlive : s.meta.markedForDeletion = false)
    (hfin : finalizerName ∈ s.meta.finalizers)
    (hmem : (parseQuantity s.spec.memory).isSome)
    (hsto : (parseQuantity s.spec.storageSize).isSome)
    (hens : ownedEnsured s w) :
    reconcile w key now =
      ({ w with servers := updateKV key { s with status := statusOf s w now } w.servers },
       [StoreOp.getServer true,
        StoreOp.getObject ObjKind.secret (s.meta.name ++ "-sftp") true,
        StoreOp.getObject ObjKind.pvc (s.meta.name ++ "-data") true,
        StoreOp.getObject ObjKind.statefulSet s.meta.name true,
        StoreOp.getObject ObjKind.service (s.meta.name ++ "-minecraft") true,
        StoreOp.getObject ObjKind.service (s.meta.name ++ "-sftp") true,
        StoreOp.writeStatus],
       ReconcileResult.ok 30) := by
  obtain ⟨heSec, hePvc, heSts, heMc, heSftp⟩ := hens
  obtain ⟨xSec, hxSec⟩ := Option.isSome_iff_exists.mp heSec
  obtain ⟨xPvc, hxPvc⟩ := Option.isSome_iff_exists.mp hePvc
  obtain ⟨xSts, hxSts⟩ := Option.isSome_iff_exists.mp heSts
  obtain ⟨xMc, hxMc⟩ := Option.isSome_iff_exists.mp heMc
  obtain ⟨xSftp, hxSftp⟩ := Option.isSome_iff_exists.mp heSftp
  obtain ⟨pvc, hpvc, hpvcn⟩ := pvcForMinecraftServer_some s hsto
  obtain ⟨sts, hsts, hstsn⟩ := statefulSetForMinecraftServer_some s hmem
  simp only [reconcile, hs, hlive, if_false, if_pos hfin, Bool.false_eq_true,
    reconcileOwnedAndStatus, hpvc, hsts, secretForMinecraftServer_name,
    serviceForMinecraft_name, serviceForSFTP_name, hpvcn, hstsn,
    createOrUpdateResource_of_some _ _ _ _ _ hxSec,
    createOrUpdateResource_of_some _ _ _ _ _ hxPvc,
    createOrUpdateResource_of_some _ _ _ _ _ hxSts,
    createOrUpdateResource_of_some _ _ _ _ _ hxMc,
    createOrUpdateResource_of_some _ _ _ _ _ hxSftp,
    hxSts, hxMc, hxSftp, statusOf]
  rfl

/-! ## Claim theorems -/

/-- C1 (failing input): the claim says every outcome of the secure random
source yields a password of length exactly `PasswordLength` (16).  When the
source draws sixteen `0xFF` bytes, the base64url encoding is twenty-one `_`
characters, a `w` and `==` padding; stripping `-`, `_`, `=` leaves the
one-character password `"w"` — the code truncates an over-long password but
never extends a short one, contradicting its own test
(`TestGenerateSecurePassword` asserts `len(password) == tt.length`). -/
theorem c1_password_shorter_than_requested :
    (GenerateSFTPCredentials "test-server" (List.replicate 16 255)).2 = "w" ∧
    ((GenerateSFTPCredentials "test-server" (List.replicate 16 255)).2).length ≠ PasswordLength := by
  decide

/-- The quantity-parser model evaluated at the significant boundary points
of the library grammar: fractional, signed, sub-unit, exponent and bare-`E`
quantities parse (with `.Value()` rounding a fractional value up), while
strings outside the grammar — bare `e`, empty, non-numeric, double dot,
wrong-case suffixes — are parse errors. -/
theorem parseQuantity_boundary_points :
    parseQuantity "1.5Gi" = some 1610612736 ∧
    parseQuantity "+2Gi" = some 2147483648 ∧
    parseQuantity "-5Mi" = some (-5242880) ∧
    parseQuantity ".5Gi" = some 536870912 ∧
    parseQuantity "1.1Gi" = some 1181116007 ∧
    parseQuantity "100m" = some 1 ∧
    parseQuantity "1e3" = some 1000 ∧
    parseQuantity "1e-3" = some 1 ∧
    parseQuantity "1E" = some 1000000000000000000 ∧
    parseQuantity "1e" = none ∧
    parseQuantity "" = none ∧
    parseQuantity "banana" = none ∧
    parseQuantity "1.5.3" = none ∧
    parseQuantity "5K" = none ∧
    parseQuantity "5ei" = none := by
  decide

/-- C4: for every cluster state and requested byte amount, the capacity check
accepts iff `requested ≤ available` (so `authorize(available)` is ok and
`authorize(available+1)` is rejected), and on rejection the reason is exactly
the template over the human-readable byte formatter. -/
theorem c4_capacity_check (c : Cluster) (req : Int) :
    ((checkMemoryAvailability c req).1 = true ↔ req ≤ (getClusterMemoryResources c).2.2) ∧
    (checkMemoryAvailability c (getClusterMemoryResources c).2.2).1 = true ∧
    (checkMemoryAvailability c ((getClusterMemoryResources c).2.2 + 1)).1 = false ∧
    (req > (getClusterMemoryResources c).2.2 →
      (checkMemoryAvailability c req).2 =
        "insufficient memory: requested " ++ bytesToHumanReadable req ++
        ", available " ++ bytesToHumanReadable (getClusterMemoryResources c).2.2) := by
  refine ⟨?_, ?_, ?_, ?_⟩
  · by_cases h : req > (getClusterMemoryResources c).2.2
    · simp only [checkMemoryAvailability, if_pos h]
      constructor
      · intro hc
        exact absurd hc (by simp)
      · intro hc
        omega
    · simp only [checkMemoryAvailability, if_neg h]
      simpa using not_lt.mp h
  · simp [checkMemoryAvailability]
  · simp [checkMemoryAvailability]
  · intro h
    simp only [checkMemoryAvailability, if_pos h]

/-- C4 witness: the spec §8 scenario — a 16 GiB node with one running 4 GiB
pod; requesting 13 GiB is rejected with the exact human-readable reason. -/
theorem c4_capacity_check_witness :
    (checkMemoryAvailability (Cluster.mk [ObservedNode.mk (some 17179869184)]
        [ObservedPod.mk "Running" [PodContainer.mk (some 4294967296)]]) 13958643712).2 =
      "insufficient memory: requested 13.0 GiB, available 12.0 GiB" := by
  have h := (c4_capacity_check (Cluster.mk [ObservedNode.mk (some 17179869184)]
      [ObservedPod.mk "Running" [PodContainer.mk (some 4294967296)]]) 13958643712).2.2.2
    (by decide)
  rw [h]
  decide

/-- Helper for C2: no string ending in `B` matches `[0-9]+[MGT]i`. -/
theorem isValidMemoryFormat_append_B (s : String) :
    isValidMemoryFormat (s ++ "B") = false := by
  have hdata : (s ++ "B").data.reverse = 'B' :: s.data.reverse := by
    simp [String.data_append]
  unfold isValidMemoryFormat
  rw [hdata]
  cases s.data.reverse with
  | nil => rfl
  | cons c2 rest => simp

/-- Helper for C2: every output of the byte formatter ends in `B` (`"%d B"`
below 1024, `"%.1f %ciB"` above), so the admission regex rejects it. -/
theorem isValidMemoryFormat_format (n : Int) :
    isValidMemoryFormat (bytesToHumanReadable n) = false := by
  unfold bytesToHumanReadable
  split
  · rw [show (" B" : String) = " " ++ "B" from rfl, ← String.append_assoc]
    exact isValidMemoryFormat_append_B _
  · rw [show ("iB" : String) = "i" ++ "B" from rfl, ← String.append_assoc]
    exact isValidMemoryFormat_append_B _

/-- C2 (amended): the round trip `parse(format(n))` recovers no `n` at all —
`format` output always ends in `B` (with a space, and a decimal point above
the base unit), so the parser accepting exactly `[0-9]+[MGT]i` rejects every
`format` output; what does hold of `format` is the fractional-digit contract:
exactly one fractional digit above the base unit and none for the base unit
`B`. -/
theorem c2_parse_rejects_format (n : Int) :
    validatedMemoryParse (bytesToHumanReadable n) = none ∧
    (n < 1024 → bytesToHumanReadable n = toString n ++ " B") ∧
    (1024 ≤ n → ∃ intPart d exp, d < 10 ∧ bytesToHumanReadable n =
       intPart ++ "." ++ String.mk [Nat.digitChar d] ++ " " ++
       String.mk [humanReadableUnits.getD exp 'K'] ++ "iB") := by
  refine ⟨?_, ?_, ?_⟩
  · rw [validatedMemoryParse, isValidMemoryFormat_format]
    simp
  · intro h
    rw [bytesToHumanReadable, if_pos h]
  · intro h
    rw [bytesToHumanReadable, if_neg (not_lt.mpr h)]
    exact ⟨_, _, _, Nat.mod_lt _ (by norm_num), rfl⟩

/-- C2 counterexample: at `n = 1 * 1024^2` the claim fails — `format`
renders `"1.0 MiB"`, which the parser rejects, so `parse(format(n))` does not
recover `n` (the parser does recover it from the canonical string `"1Mi"`). -/
theorem c2_roundtrip_counterexample :
    (1048576 : Int) = 1 * 1024 ^ 2 ∧
    bytesToHumanReadable 1048576 = "1.0 MiB" ∧
    validatedMemoryParse (bytesToHumanReadable 1048576) = none ∧
    validatedMemoryParse "1Mi" = some 1048576 := by
  decide

/-- C2 witness: the amended theorem evaluated at 2 GiB and at 512 bytes. -/
theorem c2_parse_rejects_format_witness :
    validatedMemoryParse (bytesToHumanReadable 2147483648) = none ∧
    bytesToHumanReadable 512 = toString (512 : Int) ++ " B" :=
  ⟨(c2_parse_rejects_format 2147483648).1, (c2_parse_rejects_format 512).2.1 (by decide)⟩

/-- A desired record whose optional fields are all zero/empty (C3's input). -/
def c3Server : MinecraftServer :=
  { meta := { name := "defaults-server", ns := "minecraft-servers",
              markedForDeletion := false, finalizers := [] }
    spec := { eula := true, sftpUsername := "mc-defaults-server", sftpPassword := "pw",
              memory := "2Gi", storageSize := "1Gi", version := "", serverType := "",
              maxPlayers := 0, difficulty := "", gamemode := "" }
    status := { phase := "", endpoint := "", sftpEndpoint := "", sftpUsername := "",
                sftpPassword := "", allocatedMemory := "", lastUpdated := 0, message := "" } }

/-- C3 counterexample: for a record with `maxPlayers = 0`, empty `difficulty`
and empty `gamemode`, the synthesized workload's environment contains no
`MAX_PLAYERS`, `DIFFICULTY` or `MODE` variable at all (in either container) —
it does not reflect the claimed defaults 20/"normal"/"survival". -/
theorem c3_defaults_counterexample :
    ((statefulSetForMinecraftServer c3Server).map fun sts =>
        sts.containers.map fun ct => ct.env.any fun e =>
          e.name == "MAX_PLAYERS" || e.name == "DIFFICULTY" || e.name == "MODE") =
      some [false, false] := by
  decide

/-- C3 (amended): the synthesis function defaults only `version` (→`LATEST`)
and `serverType` (→`VANILLA`); `MAX_PLAYERS`, `DIFFICULTY` and `MODE` are set
1:1 from the spec exactly when `maxPlayers > 0` / `difficulty ≠ ""` /
`gamemode ≠ ""` and are omitted entirely otherwise (the defaults 20,
"normal", "survival" are applied upstream by the admission handler's
`CreateServer`, not by synthesis); the file-access container has no
environment. -/
theorem c3_defaults_amended (m : MinecraftServer)
    (hm : (parseQuantity m.spec.memory).isSome) :
    ((statefulSetForMinecraftServer m).map fun sts =>
        sts.containers.map fun ct => ct.env.filter fun e =>
          e.name == "VERSION" || e.name == "TYPE" || e.name == "MAX_PLAYERS" ||
          e.name == "DIFFICULTY" || e.name == "MODE") =
      some [[EnvVar.mk "VERSION" (if m.spec.version = "" then "LATEST" else m.spec.version),
             EnvVar.mk "TYPE" (if m.spec.serverType = "" then "VANILLA" else m.spec.serverType)] ++
            (if m.spec.maxPlayers > 0 then [EnvVar.mk "MAX_PLAYERS" (toString m.spec.maxPlayers)] else []) ++
            (if m.spec.difficulty ≠ "" then [EnvVar.mk "DIFFICULTY" m.spec.difficulty] else []) ++
            (if m.spec.gamemode ≠ "" then [EnvVar.mk "MODE" m.spec.gamemode] else []),
            []] := by
  obtain ⟨q, hq⟩ := Option.isSome_iff_exists.mp hm
  simp only [statefulSetForMinecraftServer, hq, Option.map_some']
  split_ifs <;> simp_all

/-- C3 witness: the amended theorem evaluated on the all-defaults record. -/
theorem c3_defaults_amended_witness :
    ((statefulSetForMinecraftServer c3Server).map fun sts =>
        sts.containers.map fun ct => ct.env.filter fun e =>
          e.name == "VERSION" || e.name == "TYPE" || e.name == "MAX_PLAYERS" ||
          e.name == "DIFFICULTY" || e.name == "MODE") =
      some [[EnvVar.mk "VERSION" "LATEST", EnvVar.mk "TYPE" "VANILLA"], []] := by
  have h := c3_defaults_amended c3Server (by decide)
  rw [h]
  decide

/-- Helper for C5: the three-way case split of the phase computation. -/
theorem projectPhase_cases (ready replicas : Int) :
    (0 < ready ∧ projectPhase ready replicas = ("Running", "Server is running")) ∨
    (¬ 0 < ready ∧ 0 < replicas ∧
      projectPhase ready replicas = ("Starting", "Server is starting")) ∨
    (¬ 0 < ready ∧ ¬ 0 < replicas ∧
      projectPhase ready replicas = ("Pending", "Creating resources")) := by
  unfold projectPhase
  by_cases hr : ready > 0
  · left
    exact ⟨hr, if_pos hr⟩
  · right
    by_cases hR : replicas > 0
    · left
      refine ⟨hr, hR, ?_⟩
      rw [if_neg hr, if_pos hR]
    · right
      refine ⟨hr, hR, ?_⟩
      rw [if_neg hr, if_neg hR]

/-- C5: for every observed tuple with `0 ≤ readyReplicas ≤ totalReplicas`,
the status projection yields `Pending` iff `totalReplicas = 0`, `Starting`
iff `totalReplicas > 0 ∧ readyReplicas = 0`, `Running` iff
`readyReplicas > 0`, with the fixed per-phase message; an endpoint is
`"{address}:{port}"` exactly when the service has a non-empty first ingress
address (and a declared port), empty otherwise; and the phase is never
`Failed`. -/
theorem c5_status_projection (spec : MinecraftServerSpec) (ready replicas : Int)
    (mcIPs : List String) (mcPorts : List Int) (sftpIPs : List String) (sftpPorts : List Int)
    (now : Int) (h0 : 0 ≤ ready) (hle : ready ≤ replicas) :
    ((computeStatus spec ready replicas mcIPs mcPorts sftpIPs sftpPorts now).phase = "Pending"
        ↔ replicas = 0) ∧
    ((computeStatus spec ready replicas mcIPs mcPorts sftpIPs sftpPorts now).phase = "Starting"
        ↔ 0 < replicas ∧ ready = 0) ∧
    ((computeStatus spec ready replicas mcIPs mcPorts sftpIPs sftpPorts now).phase = "Running"
        ↔ 0 < ready) ∧
    (computeStatus spec ready replicas mcIPs mcPorts sftpIPs sftpPorts now).message =
      (if 0 < ready then "Server is running"
       else if 0 < replicas then "Server is starting" else "Creating resources") ∧
    (computeStatus spec ready replicas mcIPs mcPorts sftpIPs sftpPorts now).phase ≠ "Failed" ∧
    (∀ ip rest p ps, mcIPs = ip :: rest → mcPorts = p :: ps → ip ≠ "" →
      (computeStatus spec ready replicas mcIPs mcPorts sftpIPs sftpPorts now).endpoint =
        ip ++ ":" ++ toString p) ∧
    ((mcIPs = [] ∨ (∃ rest, mcIPs = "" :: rest)) →
      (computeStatus spec ready replicas mcIPs mcPorts sftpIPs sftpPorts now).endpoint = "") ∧
    (∀ ip rest p ps, sftpIPs = ip :: rest → sftpPorts = p :: ps → ip ≠ "" →
      (computeStatus spec ready replicas mcIPs mcPorts sftpIPs sftpPorts now).sftpEndpoint =
        ip ++ ":" ++ toString p) ∧
    ((sftpIPs = [] ∨ (∃ rest, sftpIPs = "" :: rest)) →
      (computeStatus spec ready replicas mcIPs mcPorts sftpIPs sftpPorts now).sftpEndpoint = "") := by
  have hc := projectPhase_cases ready replicas
  refine ⟨?_, ?_, ?_, ?_, ?_, ?_, ?_, ?_, ?_⟩
  · rcases hc with ⟨hr, hp⟩ | ⟨hr, hR, hp⟩ | ⟨hr, hR, hp⟩ <;>
      simp [computeStatus, hp] <;> omega
  · rcases hc with ⟨hr, hp⟩ | ⟨hr, hR, hp⟩ | ⟨hr, hR, hp⟩ <;>
      simp [computeStatus, hp] <;> omega
  · rcases hc with ⟨hr, hp⟩ | ⟨hr, hR, hp⟩ | ⟨hr, hR, hp⟩ <;>
      simp [computeStatus, hp] <;> omega
  · rcases hc with ⟨hr, hp⟩ | ⟨hr, hR, hp⟩ | ⟨hr, hR, hp⟩
    · simp [computeStatus, hp, hr]
    · simp [computeStatus, hp, hr, hR]
    · simp [computeStatus, hp, hr, hR]
  · rcases hc with ⟨hr, hp⟩ | ⟨hr, hR, hp⟩ | ⟨hr, hR, hp⟩ <;>
      simp [computeStatus, hp]
  · intro ip rest p ps hi hpp hne
    subst hi hpp
    simp [computeStatus, projectEndpoint, hne]
  · intro h
    rcases h with h | ⟨rest, h⟩ <;> subst h <;> cases mcPorts <;>
      simp [computeStatus, projectEndpoint]
  · intro ip rest p ps hi hpp hne
    subst hi hpp
    simp [computeStatus, projectEndpoint, hne]
  · intro h
    rcases h with h | ⟨rest, h⟩ <;> subst h <;> cases sftpPorts <;>
      simp [computeStatus, projectEndpoint]

/-- C5 witness: 1 requested replica, 0 ready, no assigned address — phase
`Starting` with an empty endpoint (the spec §8 scenario). -/
theorem c5_status_projection_witness :
    (computeStatus (MinecraftServerSpec.mk true "u" "p" "2Gi" "1Gi" "" "" 0 "" "")
        0 1 [] [25565] [] [22] 7).phase = "Starting" ∧
    (computeStatus (MinecraftServerSpec.mk true "u" "p" "2Gi" "1Gi" "" "" 0 "" "")
        0 1 [] [25565] [] [22] 7).endpoint = "" := by
  have h := c5_status_projection (MinecraftServerSpec.mk true "u" "p" "2Gi" "1Gi" "" "" 0 "" "")
    0 1 [] [25565] [] [22] 7 (by decide) (by decide)
  exact ⟨h.2.1.mpr (by constructor <;> decide), h.2.2.2.2.2.2.1 (Or.inl rfl)⟩

/-- Helper for C8: appending a fixed suffix to server names is injective. -/
theorem string_append_right_cancel (a b s : String) (h : a ++ s = b ++ s) : a = b := by
  have hd := congrArg String.data h
  simp only [String.data_append] at hd
  have := List.append_cancel_right hd
  cases a
  cases b
  exact congrArg String.mk this

/-- Helper for C8: the `-minecraft` and `-sftp` suffixes can never produce
the same Service name, whatever the two server names are (the last characters
differ). -/
theorem string_mc_ne_sftp (a b : String) : a ++ "-minecraft" ≠ b ++ "-sftp" := by
  intro h
  have hd := congrArg (fun s : String => s.data.reverse) h
  simp only [String.data_append, List.reverse_append] at hd
  have h1 : ("-minecraft" : String).data.reverse = ['t','f','a','r','c','e','n','i','m','-'] := rfl
  have h2 : ("-sftp" : String).data.reverse = ['p','t','f','s','-'] := rfl
  rw [h1, h2] at hd
  simp at hd

/-- A server named `alpha` (C8's first input). -/
def c8ServerA : MinecraftServer :=
  { meta := { name := "alpha", ns := "minecraft-servers",
              markedForDeletion := false, finalizers := [] }
    spec := { eula := true, sftpUsername := "mc-alpha", sftpPassword := "a",
              memory := "2Gi", storageSize := "1Gi", version := "", serverType := "",
              maxPlayers := 0, difficulty := "", gamemode := "" }
    status := { phase := "", endpoint := "", sftpEndpoint := "", sftpUsername := "",
                sftpPassword := "", allocatedMemory := "", lastUpdated := 0, message := "" } }

/-- The same desired record under the name `beta` (C8's second input). -/
def c8ServerB : MinecraftServer :=
  { c8ServerA with meta := { c8ServerA.meta with name := "beta" } }

/-- C8: owned-object names are a pure function of the server name
(`<name>-sftp` Secret, `<name>-data` PVC, `<name>` StatefulSet,
`<name>-minecraft` and `<name>-sftp` Services), and for distinct server
names no two owned objects of the same kind collide — including the two
Services of different servers across the `-minecraft`/`-sftp` suffixes. -/
theorem c8_owned_names (m1 m2 : MinecraftServer) :
    (secretForMinecraftServer m1).name = m1.meta.name ++ "-sftp" ∧
    (∀ p, pvcForMinecraftServer m1 = some p → p.name = m1.meta.name ++ "-data") ∧
    (∀ s, statefulSetForMinecraftServer m1 = some s → s.name = m1.meta.name) ∧
    (serviceForMinecraft m1).name = m1.meta.name ++ "-minecraft" ∧
    (serviceForSFTP m1).name = m1.meta.name ++ "-sftp" ∧
    (m1.meta.name ≠ m2.meta.name →
      (secretForMinecraftServer m1).name ≠ (secretForMinecraftServer m2).name ∧
      m1.meta.name ++ "-data" ≠ m2.meta.name ++ "-data" ∧
      (serviceForMinecraft m1).name ≠ (serviceForMinecraft m2).name ∧
      (serviceForSFTP m1).name ≠ (serviceForSFTP m2).name ∧
      (serviceForMinecraft m1).name ≠ (serviceForSFTP m2).name ∧
      (serviceForSFTP m1).name ≠ (serviceForMinecraft m2).name) := by
  refine ⟨rfl, ?_, ?_, rfl, rfl, ?_⟩
  · intro p hp
    cases hq : parseQuantity m1.spec.storageSize with
    | none => rw [pvcForMinecraftServer, hq] at hp; simp at hp
    | some q =>
        rw [pvcForMinecraftServer, hq, Option.map_some'] at hp
        cases hp
        rfl
  · intro s hs
    cases hq : parseQuantity m1.spec.memory with
    | none => rw [statefulSetForMinecraftServer, hq] at hs; simp at hs
    | some q =>
        rw [statefulSetForMinecraftServer, hq, Option.map_some'] at hs
        cases hs
        rfl
  · intro hne
    refine ⟨?_, ?_, ?_, ?_, ?_, ?_⟩
    · exact fun h => hne (string_append_right_cancel _ _ _ h)
    · exact fun h => hne (string_append_right_cancel _ _ _ h)
    · exact fun h => hne (string_append_right_cancel _ _ _ h)
    · exact fun h => hne (string_append_right_cancel _ _ _ h)
    · exact string_mc_ne_sftp _ _
    · exact fun h => string_mc_ne_sftp _ _ h.symm

/-- C8 witness: the theorem applied to the servers `alpha` and `beta`. -/
theorem c8_owned_names_witness :
    (serviceForMinecraft c8ServerA).name ≠ (serviceForSFTP c8ServerB).name ∧
    (secretForMinecraftServer c8ServerA).name = "alpha" ++ "-sftp" ∧
    ((pvcForMinecraftServer c8ServerA).map fun p => p.name) = some ("alpha" ++ "-data") := by
  have h := c8_owned_names c8ServerA c8ServerB
  refine ⟨(h.2.2.2.2.2 (by decide)).2.2.2.2.1, h.1, ?_⟩
  have hp := h.2.1 ((pvcForMinecraftServer c8ServerA).get (by decide))
    (Option.some_get (by decide)).symm
  rw [show pvcForMinecraftServer c8ServerA =
      some ((pvcForMinecraftServer c8ServerA).get (by decide)) from
      (Option.some_get (by decide)).symm, Option.map_some', hp]
  rfl

/-- Helper for C7: the owned-object/status segment never changes the stored
record's metadata (it writes only the status), on every branch including the
`MustParse` panics and the status-read error. -/
theorem reconcileOwnedAndStatus_preserves_meta (w : World) (key : StoreKey)
    (s : MinecraftServer) (now : Int) (hs : lookupKV key w.servers = some s) :
    ∀ s', lookupKV key (reconcileOwnedAndStatus w key s now).1.servers = some s' →
      s'.meta = s.meta := by
  intro s' h
  unfold reconcileOwnedAndStatus at h
  cases hpvc : pvcForMinecraftServer s with
  | none =>
      simp only [hpvc] at h
      rw [hs] at h
      cases h
      rfl
  | some pvc =>
      simp only [hpvc] at h
      cases hsts : statefulSetForMinecraftServer s with
      | none =>
          simp only [hsts] at h
          rw [hs] at h
          cases h
          rfl
      | some sts =>
          simp only [hsts] at h
          split at h
          · rw [lookupKV_updateKV_self key _ w.servers (by simp [hs])] at h
            cases h
            rfl
          · rw [hs] at h
            cases h
            rfl

/-- C7: (1) a fetch miss is terminal success with no mutation and no store
writes beyond the read; (2) a record marked for deletion that carries the
cleanup finalizer has the finalizer removed (all occurrences) and the pass
stops — no owned object is read, created or synthesized and the result is
success; (3) a live record lacking the finalizer has it attached (the
`updateServer` write) before any other operation of the pass, and every
record left in the store carries the finalizer. -/
theorem c7_reconcile_gates (w : World) (key : StoreKey) (now : Int) :
    (lookupKV key w.servers = none →
      reconcile w key now = (w, [StoreOp.getServer false], ReconcileResult.ok 0)) ∧
    (∀ server, lookupKV key w.servers = some server →
      server.meta.markedForDeletion = true →
      finalizerName ∈ server.meta.finalizers →
      (reconcile w key now).1.secrets = w.secrets ∧
      (reconcile w key now).1.pvcs = w.pvcs ∧
      (reconcile w key now).1.stss = w.stss ∧
      (reconcile w key now).1.svcs = w.svcs ∧
      (∀ op ∈ (reconcile w key now).2.1, ∀ kind nm, op ≠ StoreOp.createObject kind nm) ∧
      lookupKV key (reconcile w key now).1.servers =
        some { server with meta := { server.meta with
          finalizers := server.meta.finalizers.filter fun f => f != finalizerName } } ∧
      (reconcile w key now).2.2 = ReconcileResult.ok 0) ∧
    (∀ server, lookupKV key w.servers = some server →
      server.meta.markedForDeletion = false →
      finalizerName ∉ server.meta.finalizers →
      (∃ rest, (reconcile w key now).2.1 =
        StoreOp.getServer true :: StoreOp.updateServer :: rest) ∧
      (∀ s', lookupKV key (reconcile w key now).1.servers = some s' →
        finalizerName ∈ s'.meta.finalizers)) := by
  refine ⟨?_, ?_, ?_⟩
  · intro h
    exact reconcile_not_found w key now h
  · intro server hs hdel hfin
    rw [reconcile_deletion_finalizer w key now server hs hdel hfin]
    refine ⟨rfl, rfl, rfl, rfl, ?_, ?_, rfl⟩
    · intro op hop kind nm
      simp at hop
      rcases hop with rfl | rfl <;> simp
    · exact lookupKV_updateKV_self key _ w.servers (by simp [hs])
  · intro server hs hlive hfin
    have hstep : reconcile w key now =
        ((reconcileOwnedAndStatus
            { w with servers := updateKV key { server with meta := { server.meta with
                finalizers := server.meta.finalizers ++ [finalizerName] } } w.servers } key
            { server with meta := { server.meta with
                finalizers := server.meta.finalizers ++ [finalizerName] } } now).1,
         StoreOp.getServer true :: StoreOp.updateServer ::
           (reconcileOwnedAndStatus
            { w with servers := updateKV key { server with meta := { server.meta with
                finalizers := server.meta.finalizers ++ [finalizerName] } } w.servers } key
            { server with meta := { server.meta with
                finalizers := server.meta.finalizers ++ [finalizerName] } } now).2.1,
         (reconcileOwnedAndStatus
            { w with servers := updateKV key { server with meta := { server.meta with
                finalizers := server.meta.finalizers ++ [finalizerName] } } w.servers } key
            { server with meta := { server.meta with
                finalizers := server.meta.finalizers ++ [finalizerName] } } now).2.2) := by
      simp only [reconcile, hs, hlive, if_false, if_neg hfin, Bool.false_eq_true]
    constructor
    · exact ⟨_, by rw [hstep]⟩
    · intro s' h
      rw [hstep] at h
      have hm := reconcileOwnedAndStatus_preserves_meta _ key _ now
        (lookupKV_updateKV_self key _ w.servers (by simp [hs])) s' h
      rw [hm]
      simp

/-- A record marked for deletion carrying the cleanup finalizer (C7 input). -/
def c7Server : MinecraftServer :=
  { meta := { name := "doomed", ns := "minecraft-servers",
              markedForDeletion := true, finalizers := [finalizerName, "other/finalizer"] }
    spec := { eula := true, sftpUsername := "mc-doomed", sftpPassword := "pw",
              memory := "2Gi", storageSize := "1Gi", version := "", serverType := "",
              maxPlayers := 0, difficulty := "", gamemode := "" }
    status := { phase := "", endpoint := "", sftpEndpoint := "", sftpUsername := "",
                sftpPassword := "", allocatedMemory := "", lastUpdated := 0, message := "" } }

/-- A world holding only `c7Server`. -/
def c7World : World :=
  { servers := [(("minecraft-servers", "doomed"), c7Server)]
    secrets := [], pvcs := [], stss := [], svcs := [] }

/-- C7 witness: a miss on `ghost` is a pure no-op success; reconciling the
deletion-marked `doomed` touches no owned store and leaves only the foreign
finalizer on the record. -/
theorem c7_reconcile_gates_witness :
    reconcile c7World ("minecraft-servers", "ghost") 3 =
      (c7World, [StoreOp.getServer false], ReconcileResult.ok 0) ∧
    (reconcile c7World ("minecraft-servers", "doomed") 3).1.svcs = c7World.svcs ∧
    ((lookupKV ("minecraft-servers", "doomed")
        (reconcile c7World ("minecraft-servers", "doomed") 3).1.servers).map
      fun s' => s'.meta.finalizers) = some ["other/finalizer"] := by
  have h1 := (c7_reconcile_gates c7World ("minecraft-servers", "ghost") 3).1 (by decide)
  have h2 := (c7_reconcile_gates c7World ("minecraft-servers", "doomed") 3).2.1 c7Server
    (by decide) (by decide) (by decide)
  refine ⟨h1, h2.2.2.2.1, ?_⟩
  rw [h2.2.2.2.2.2.1, Option.map_some']
  decide

/-- The status schema documented in spec §6:
`{phase, endpoint, sftpEndpoint, allocatedMemory, message, lastUpdated}`. -/
def documentedStatusFields : List String :=
  ["phase", "endpoint", "sftpEndpoint", "allocatedMemory", "message", "lastUpdated"]

/-- C10: every successful reconcile pass copies the plaintext SFTP username
and password verbatim from the record's spec into its status — two fields
that are not part of the documented status schema. -/
theorem c10_status_carries_credentials (w : World) (key : StoreKey) (now : Int)
    (server : MinecraftServer)
    (hs : lookupKV key w.servers = some server)
    (hlive : server.meta.markedForDeletion = false)
    (hmem : (parseQuantity server.spec.memory).isSome)
    (hsto : (parseQuantity server.spec.storageSize).isSome) :
    (reconcile w key now).2.2 = ReconcileResult.ok 30 ∧
    (∀ s', lookupKV key (reconcile w key now).1.servers = some s' →
      s'.status.sftpUsername = server.spec.sftpUsername ∧
      s'.status.sftpPassword = server.spec.sftpPassword) ∧
    "sftpUsername" ∉ documentedStatusFields ∧
    "sftpPassword" ∉ documentedStatusFields := by
  obtain ⟨s1, h30, hls, hname, hns, hlive1, hfin1, hspec, hens, hstat⟩ :=
    reconcile_live_props w key now server hs hlive hmem hsto
  refine ⟨h30, ?_, by decide, by decide⟩
  intro s' h
  rw [hls] at h
  cases h
  have hf := statusOf_credential_fields s1 (reconcile w key now).1 now
    hens.2.2.1 hens.2.2.2.1 hens.2.2.2.2
  rw [hstat, ← hspec]
  exact ⟨hf.1, hf.2.1⟩

/-- A live record with distinctive credentials (C10 input). -/
def c10Server : MinecraftServer :=
  { meta := { name := "statusful", ns := "minecraft-servers",
              markedForDeletion := false, finalizers := [] }
    spec := { eula := true, sftpUsername := "mc-statusful", sftpPassword := "secret-pw",
              memory := "2Gi", storageSize := "1Gi", version := "", serverType := "",
              maxPlayers := 0, difficulty := "", gamemode := "" }
    status := { phase := "", endpoint := "", sftpEndpoint := "", sftpUsername := "",
                sftpPassword := "", allocatedMemory := "", lastUpdated := 0, message := "" } }

/-- A world holding only `c10Server`. -/
def c10World : World :=
  { servers := [(("minecraft-servers", "statusful"), c10Server)]
    secrets := [], pvcs := [], stss := [], svcs := [] }

/-- C10 witness: after one pass, the stored status holds the plaintext
credentials copied from the spec. -/
theorem c10_status_carries_credentials_witness :
    (reconcile c10World ("minecraft-servers", "statusful") 5).2.2 = ReconcileResult.ok 30 ∧
    ((lookupKV ("minecraft-servers", "statusful")
        (reconcile c10World ("minecraft-servers", "statusful") 5).1.servers).map
      fun s' => (s'.status.sftpUsername, s'.status.sftpPassword)) =
      some ("mc-statusful", "secret-pw") := by
  have h := c10_status_carries_credentials c10World ("minecraft-servers", "statusful") 5
    c10Server (by decide) (by decide) (by decide) (by decide)
  refine ⟨h.1, ?_⟩
  cases hl : lookupKV ("minecraft-servers", "statusful")
      (reconcile c10World ("minecraft-servers", "statusful") 5).1.servers with
  | none => exact absurd hl (by decide)
  | some s' =>
      obtain ⟨hu, hp⟩ := h.2.1 s' hl
      rw [Option.map_some', hu, hp]
      rfl

/-- C6: `createOrUpdateResource` creates the owner-referenced object exactly
when the read misses and leaves the store completely untouched when the
object exists (no update operation exists on any path); consequently a
second reconcile of the same live server issues no create at all, leaves
every owned-object store unchanged, and changes the stored record only in
`status.lastUpdated`. -/
theorem c6_create_if_absent_and_idempotent {α : Type} (kind : ObjKind) (k : StoreKey)
    (v : α) (store : List (StoreKey × α)) (w : World) (key : StoreKey) (now1 now2 : Int)
    (server : MinecraftServer)
    (hs : lookupKV key w.servers = some server)
    (hlive : server.meta.markedForDeletion = false)
    (hmem : (parseQuantity server.spec.memory).isSome)
    (hsto : (parseQuantity server.spec.storageSize).isSome) :
    (lookupKV k store = none →
      createOrUpdateResource kind k v store =
        (store ++ [(k, v)],
         [StoreOp.getObject kind k.2 false, StoreOp.createObject kind k.2])) ∧
    (∀ x, lookupKV k store = some x →
      createOrUpdateResource kind k v store = (store, [StoreOp.getObject kind k.2 true])) ∧
    ((reconcile (reconcile w key now1).1 key now2).1.secrets = (reconcile w key now1).1.secrets ∧
     (reconcile (reconcile w key now1).1 key now2).1.pvcs = (reconcile w key now1).1.pvcs ∧
     (reconcile (reconcile w key now1).1 key now2).1.stss = (reconcile w key now1).1.stss ∧
     (reconcile (reconcile w key now1).1 key now2).1.svcs = (reconcile w key now1).1.svcs) ∧
    (∀ op ∈ (reconcile (reconcile w key now1).1 key now2).2.1,
       ∀ kind' nm, op ≠ StoreOp.createObject kind' nm) ∧
    (∀ s1, lookupKV key (reconcile w key now1).1.servers = some s1 →
       lookupKV key (reconcile (reconcile w key now1).1 key now2).1.servers =
         some { s1 with status := { s1.status with lastUpdated := now2 } }) := by
  obtain ⟨s1, h30, hls, hname, hns, hlive1, hfin1, hspec, hens, hstat⟩ :=
    reconcile_live_props w key now1 server hs hlive hmem hsto
  have hmem1 : (parseQuantity s1.spec.memory).isSome := by rw [hspec]; exact hmem
  have hsto1 : (parseQuantity s1.spec.storageSize).isSome := by rw [hspec]; exact hsto
  have heq := reconcile_ensured_eq (reconcile w key now1).1 key now2 s1
    hls hlive1 hfin1 hmem1 hsto1 hens
  refine ⟨?_, ?_, ?_, ?_, ?_⟩
  · intro h
    unfold createOrUpdateResource
    rw [h]
  · intro x h
    unfold createOrUpdateResource
    rw [h]
  · rw [heq]
    exact ⟨rfl, rfl, rfl, rfl⟩
  · rw [heq]
    intro op hop kind' nm
    simp at hop
    rcases hop with rfl | rfl | rfl | rfl | rfl | rfl | rfl <;> simp
  · intro s1' h1'
    rw [hls] at h1'
    cases h1'
    rw [heq]
    rw [lookupKV_updateKV_self key _ (reconcile w key now1).1.servers (by simp [hls])]
    have hsw := statusOf_set_now s1 (reconcile w key now1).1 now2 now1
      hens.2.2.1 hens.2.2.2.1 hens.2.2.2.2
    rw [hsw, ← hstat]

/-- A live record with all optional fields set (C6 input). -/
def c6Server : MinecraftServer :=
  { meta := { name := "stable", ns := "minecraft-servers",
              markedForDeletion := false, finalizers := [] }
    spec := { eula := true, sftpUsername := "mc-stable", sftpPassword := "pw",
              memory := "4Gi", storageSize := "10Gi", version := "1.19.4", serverType := "PAPER",
              maxPlayers := 50, difficulty := "hard", gamemode := "creative" }
    status := { phase := "", endpoint := "", sftpEndpoint := "", sftpUsername := "",
                sftpPassword := "", allocatedMemory := "", lastUpdated := 0, message := "" } }

/-- A world holding only `c6Server`. -/
def c6World : World :=
  { servers := [(("minecraft-servers", "stable"), c6Server)]
    secrets := [], pvcs := [], stss := [], svcs := [] }

/-- C6 witness: two passes over `stable` — the second leaves the Service
store untouched and bumps only `lastUpdated`; creating into an empty store
appends the owner-referenced object. -/
theorem c6_create_if_absent_and_idempotent_witness :
    (reconcile (reconcile c6World ("minecraft-servers", "stable") 1).1
        ("minecraft-servers", "stable") 2).1.svcs =
      (reconcile c6World ("minecraft-servers", "stable") 1).1.svcs ∧
    ((lookupKV ("minecraft-servers", "stable")
        (reconcile (reconcile c6World ("minecraft-servers", "stable") 1).1
          ("minecraft-servers", "stable") 2).1.servers).map
      fun s => s.status.lastUpdated) = some 2 ∧
    createOrUpdateResource ObjKind.secret (("minecraft-servers", "probe") : StoreKey)
        (StoredSecret.mk (SecretObj.mk "probe" "minecraft-servers" "u" "p") (some "stable"))
        [] =
      ([(("minecraft-servers", "probe"),
         StoredSecret.mk (SecretObj.mk "probe" "minecraft-servers" "u" "p") (some "stable"))],
       [StoreOp.getObject ObjKind.secret "probe" false,
        StoreOp.createObject ObjKind.secret "probe"]) := by
  have h := c6_create_if_absent_and_idempotent ObjKind.secret
    (("minecraft-servers", "probe") : StoreKey)
    (StoredSecret.mk (SecretObj.mk "probe" "minecraft-servers" "u" "p") (some "stable"))
    [] c6World ("minecraft-servers", "stable") 1 2 c6Server
    (by decide) (by decide) (by decide) (by decide)
  refine ⟨h.2.2.1.2.2.2, ?_, h.1 (by decide)⟩
  cases hl : lookupKV ("minecraft-servers", "stable")
      (reconcile c6World ("minecraft-servers", "stable") 1).1.servers with
  | none => exact absurd hl (by decide)
  | some s1 =>
      rw [h.2.2.2.2 s1 hl, Option.map_some']
